import Mathlib

/-!
Shallow embedding of `src/include/unique_ptr.h`: a single-object `Unique_ptr`
over a stored pointer and a stored deleter.

Modelling choices:
* A C++ pointer value of type `pointer` is modelled as `Option P`: `none` is
  `nullptr`, `some a` is a non-null address.
* A `Unique_ptr<T, D>` object state is the pair of its stored pointer and its
  stored deleter value (the fields of `detail::Compressed_pair`).
* Deleter invocations (`get_deleter()(p)`) are the only side effects the
  claims are about; each operation returns, next to its result state, the
  list of invocations it performed, in order.  An invocation records the
  deleter value used, the (non-null) argument, and the value the stored
  pointer had at the moment of the call — the last field captures what a
  deleter that re-enters `get()` would observe.
* Moving a deleter value is modelled as copying it (value semantics); the
  converting operations take an explicit conversion function standing for
  the implicit C++ conversions on pointers and deleters.
-/

/-- One invocation of the stored deleter: `get_deleter()(arg)` executed while
the stored pointer of the invoking object held `observedGet`. -/
structure DelCall (P D : Type) where
  del : D
  arg : P
  observedGet : Option P
  deriving Repr, DecidableEq

/-- State of a `Unique_ptr<T, D>` object: the stored pointer (`pair_.first()`)
and the stored deleter (`pair_.second()`). -/
structure Unique_ptr (P D : Type) where
  ptr : Option P
  del : D
  deriving Repr, DecidableEq

namespace Unique_ptr

variable {P D : Type}

/-- Observer `pointer get() const`: returns the stored pointer. -/
def get (x : Unique_ptr P D) : Option P :=
  x.ptr

/-- Observer `deleter_type &get_deleter()`: the stored deleter (as a value). -/
def get_deleter (x : Unique_ptr P D) : D :=
  x.del

/-- Conversion `explicit operator bool() const`: `get() != nullptr`. -/
def toBool (x : Unique_ptr P D) : Bool :=
  x.ptr.isSome

/-- Modifier `pointer release()`: saves the stored pointer, stores null, returns the
saved value.  The body contains no call to the deleter, so the trace is
empty. -/
def release (x : Unique_ptr P D) : Option P × Unique_ptr P D × List (DelCall P D) :=
  (x.ptr, { x with ptr := none }, [])

/-- Modifier `void reset(pointer p = pointer())`: saves the old stored pointer, assigns
`p` to the stored pointer, and then — if and only if the old pointer was
non-null — calls `get_deleter()(old_p)`.  The call happens after the
assignment, so it observes the new stored pointer `p`. -/
def reset (x : Unique_ptr P D) (p : Option P) : Unique_ptr P D × List (DelCall P D) :=
  let old_p := x.ptr
  let x' : Unique_ptr P D := { x with ptr := p }
  match old_p with
  | none => (x', [])
  | some a => (x', [⟨x'.del, a, x'.ptr⟩])

/-- Destructor `~Unique_ptr()`: if `get() != nullptr`, calls `get_deleter()(get())`.
The stored pointer is not modified before the call, so the call observes the
still-stored pointer. -/
def destruct (x : Unique_ptr P D) : List (DelCall P D) :=
  match x.ptr with
  | none => []
  | some a => [⟨x.del, a, x.ptr⟩]

/-- Move constructor `Unique_ptr(Unique_ptr &&u)`: initializes the pair with
`u.release()` and with a deleter constructed from `u.get_deleter()` (deleter
move modelled as value copy).  Returns the constructed object, the state `u`
is left in, and the (empty) trace. -/
def moveConstruct (u : Unique_ptr P D) :
    (Unique_ptr P D × Unique_ptr P D) × List (DelCall P D) :=
  let (p, u', tr) := release u
  ((⟨p, u'.del⟩, u'), tr)

/-- Converting move constructor `Unique_ptr(Unique_ptr<U, E> &&u)`: same body
as the move constructor, with the implicit pointer conversion `cp` applied to
the released pointer and the deleter conversion `cd` applied to
`u.get_deleter()`. -/
def convMoveConstruct {Q E : Type} (cp : Q → P) (cd : E → D) (u : Unique_ptr Q E) :
    (Unique_ptr P D × Unique_ptr Q E) × List (DelCall Q E) :=
  let (p, u', tr) := release u
  ((⟨p.map cp, cd u'.del⟩, u'), tr)

/-- Move assignment `operator=(Unique_ptr &&u)` for `this ≠ &u`:
`reset(u.release())` followed by `get_deleter() = u.get_deleter()`.
Returns the new states of the target and of `u`, and the trace. -/
def moveAssign (x u : Unique_ptr P D) :
    (Unique_ptr P D × Unique_ptr P D) × List (DelCall P D) :=
  let (p, u', tr₁) := release u
  let (x', tr₂) := reset x p
  (({ x' with del := u'.del }, u'), tr₁ ++ tr₂)

/-- Move assignment `x = std::move(x)` where source and target alias: the same
object goes through `u.release()` and then `reset(...)` and the deleter
self-assignment. -/
def moveAssignSelf (x : Unique_ptr P D) : Unique_ptr P D × List (DelCall P D) :=
  let (p, x₁, tr₁) := release x
  let (x₂, tr₂) := reset x₁ p
  ({ x₂ with del := x₂.del }, tr₁ ++ tr₂)

/-- Null assignment `operator=(std::nullptr_t)`: calls `reset()`, i.e. `reset` with the
value-initialized (null) pointer. -/
def nullAssign (x : Unique_ptr P D) : Unique_ptr P D × List (DelCall P D) :=
  reset x none

/-- Member `void swap(Unique_ptr &u)`: `std::swap` on the stored pointers,
then `std::swap` on the stored deleters.  No deleter call occurs. -/
def swap (x u : Unique_ptr P D) :
    (Unique_ptr P D × Unique_ptr P D) × List (DelCall P D) :=
  ((⟨u.ptr, u.del⟩, ⟨x.ptr, x.del⟩), [])

end Unique_ptr

/-- Free `swap(Unique_ptr &x, Unique_ptr &y)`: calls `x.swap(y)`. -/
def swapFree {P D : Type} (x y : Unique_ptr P D) :
    (Unique_ptr P D × Unique_ptr P D) × List (DelCall P D) :=
  Unique_ptr.swap x y

/-- Free `operator==(const Unique_ptr<T1, D1> &x, const Unique_ptr<T2, D2> &y)`:
`x.get() == y.get()`.  The two deleter types may differ; the pointer values
are compared in a common pointer-value type `P`. -/
def ueq {P D₁ D₂ : Type} [DecidableEq P]
    (x : Unique_ptr P D₁) (y : Unique_ptr P D₂) : Bool :=
  x.get == y.get

/-- Free `operator==(const Unique_ptr<T, D> &x, nullptr_t)`: `!x`. -/
def ueqNull {P D : Type} (x : Unique_ptr P D) : Bool :=
  !x.toBool

namespace Unique_ptr

variable {P D : Type}

/-- Reduction of the state component of `reset`. -/
theorem reset_fst (x : Unique_ptr P D) (p : Option P) :
    (reset x p).1 = { x with ptr := p } := by
  cases h : x.ptr <;> simp [reset, h]

/-- Reduction of the trace component of `reset`. -/
theorem reset_snd (x : Unique_ptr P D) (p : Option P) :
    (reset x p).2 = match x.ptr with
      | none => []
      | some a => [⟨x.del, a, p⟩] := by
  cases h : x.ptr <;> simp [reset, h]

/-- Self-move-assignment computes to the identity with an empty trace. -/
theorem moveAssignSelf_eq (x : Unique_ptr P D) : moveAssignSelf x = (x, []) :=
  rfl

end Unique_ptr

namespace Unique_ptr

variable {P D : Type}

/-- Reduction of `moveAssign` on distinct objects to its components. -/
theorem moveAssign_eq (x u : Unique_ptr P D) :
    moveAssign x u = ((⟨u.ptr, u.del⟩, { u with ptr := none }),
      match x.ptr with
      | none => []
      | some a => [⟨x.del, a, u.ptr⟩]) := by
  cases h : x.ptr <;> simp [moveAssign, release, reset, h]

end Unique_ptr

open Unique_ptr

/-- Claim C2: after move construction (plain or converting) and after move
assignment into an empty destination, the destination's stored pointer equals
the source's pre-move stored pointer (under the implicit pointer conversion
for the converting form), the source's stored pointer is null, and the
destination's deleter is constructed/assigned from the source's deleter. -/
theorem move_transfer_postconditions {P D Q E : Type} (cp : Q → P) (cd : E → D)
    (u : Unique_ptr P D) (v : Unique_ptr Q E) (x w : Unique_ptr P D)
    (hx : x.get = none) :
    ((moveConstruct u).1.1.get = u.get ∧
      (moveConstruct u).1.2.get = none ∧
      (moveConstruct u).1.1.get_deleter = u.get_deleter) ∧
    ((convMoveConstruct cp cd v).1.1.get = v.get.map cp ∧
      (convMoveConstruct cp cd v).1.2.get = none ∧
      (convMoveConstruct cp cd v).1.1.get_deleter = cd v.get_deleter) ∧
    ((moveAssign x w).1.1.get = w.get ∧
      (moveAssign x w).1.2.get = none ∧
      (moveAssign x w).1.1.get_deleter = w.get_deleter) := by
  refine ⟨⟨rfl, rfl, rfl⟩, ⟨rfl, rfl, rfl⟩, ?_⟩
  rw [moveAssign_eq]
  exact ⟨rfl, rfl, rfl⟩

/-- Witness for C2 at concrete inputs. -/
theorem move_transfer_postconditions_witness :
    ((moveConstruct (⟨some 5, 7⟩ : Unique_ptr Nat Nat)).1.1.get = some 5 ∧
      (moveConstruct (⟨some 5, 7⟩ : Unique_ptr Nat Nat)).1.2.get = none ∧
      (moveConstruct (⟨some 5, 7⟩ : Unique_ptr Nat Nat)).1.1.get_deleter = 7) ∧
    ((convMoveConstruct Nat.succ Nat.succ (⟨some 5, 7⟩ : Unique_ptr Nat Nat)).1.1.get
        = (some 5).map Nat.succ ∧
      (convMoveConstruct Nat.succ Nat.succ (⟨some 5, 7⟩ : Unique_ptr Nat Nat)).1.2.get
        = none ∧
      (convMoveConstruct Nat.succ Nat.succ (⟨some 5, 7⟩ : Unique_ptr Nat Nat)).1.1.get_deleter
        = Nat.succ 7) ∧
    ((moveAssign (⟨none, 3⟩ : Unique_ptr Nat Nat) ⟨some 9, 4⟩).1.1.get = (⟨some 9, 4⟩ :
        Unique_ptr Nat Nat).get ∧
      (moveAssign (⟨none, 3⟩ : Unique_ptr Nat Nat) ⟨some 9, 4⟩).1.2.get = none ∧
      (moveAssign (⟨none, 3⟩ : Unique_ptr Nat Nat) ⟨some 9, 4⟩).1.1.get_deleter = 4) :=
  move_transfer_postconditions Nat.succ Nat.succ ⟨some 5, 7⟩ ⟨some 5, 7⟩ ⟨none, 3⟩
    ⟨some 9, 4⟩ rfl

/-- Claim C3: move-assigning an instance from itself leaves its stored pointer (and
deleter) unchanged and performs zero deleter invocations, even though the
operation is expressed as `reset(u.release())` followed by deleter
assignment. -/
theorem self_move_assign_safe {P D : Type} (x : Unique_ptr P D) :
    (moveAssignSelf x).1.get = x.get ∧
    (moveAssignSelf x).1.get_deleter = x.get_deleter ∧
    (moveAssignSelf x).2 = [] := by
  rw [moveAssignSelf_eq]
  exact ⟨rfl, rfl, rfl⟩

/-- Claim C4: `reset q` stores `q` first and only then invokes the deleter; the
deleter is invoked on the previous stored pointer exactly when that pointer
was non-null, and the invocation observes the new stored pointer `q`;
afterwards `get` equals `q`. -/
theorem reset_order_and_postcondition {P D : Type} (x : Unique_ptr P D) (q : Option P) :
    (reset x q).1.get = q ∧
    (reset x q).1.get_deleter = x.get_deleter ∧
    (reset x q).2 = (match x.get with
      | none => []
      | some a => [⟨x.get_deleter, a, q⟩]) := by
  refine ⟨?_, ?_, ?_⟩
  · rw [reset_fst]; rfl
  · rw [reset_fst]; rfl
  · rw [reset_snd]; rfl

/-- Claim C5: `release` returns the stored pointer it found, leaves the stored
pointer null, keeps the stored deleter unchanged, and invokes no deleter. -/
theorem release_frame {P D : Type} (x : Unique_ptr P D) :
    (release x).1 = x.get ∧
    (release x).2.1.get = none ∧
    (release x).2.1.get_deleter = x.get_deleter ∧
    (release x).2.2 = [] :=
  ⟨rfl, rfl, rfl, rfl⟩

/-- Claim C6: destruction of an instance with a non-null stored pointer invokes the
deleter exactly once, passing the stored pointer; destruction of a null
instance invokes it zero times. -/
theorem destruct_exactly_once {P D : Type} (x : Unique_ptr P D) :
    destruct x = (match x.get with
      | none => []
      | some a => [⟨x.get_deleter, a, some a⟩]) := by
  cases h : x.ptr <;>
    simp [destruct, Unique_ptr.get, Unique_ptr.get_deleter, h]

/-- Claim C8: member `swap` and the free `swap` both exchange the stored pointers
and the stored deleters of the two instances and invoke no deleter, for all
combinations of null and non-null stored pointers. -/
theorem swap_exchanges_state {P D : Type} (x y : Unique_ptr P D) :
    (Unique_ptr.swap x y).1.1.get = y.get ∧
    (Unique_ptr.swap x y).1.1.get_deleter = y.get_deleter ∧
    (Unique_ptr.swap x y).1.2.get = x.get ∧
    (Unique_ptr.swap x y).1.2.get_deleter = x.get_deleter ∧
    (Unique_ptr.swap x y).2 = [] ∧
    swapFree x y = Unique_ptr.swap x y :=
  ⟨rfl, rfl, rfl, rfl, rfl, rfl⟩

/-- Claim C9: `operator==` on two instances (of possibly different deleter types)
holds iff the stored pointers are equal, independent of the deleters; and
`x == nullptr` holds iff `x.get()` is null, equivalently iff the boolean
conversion of `x` is false. -/
theorem equality_is_address_equality {P D₁ D₂ : Type} [DecidableEq P]
    (x : Unique_ptr P D₁) (y : Unique_ptr P D₂) :
    (ueq x y = true ↔ x.get = y.get) ∧
    (ueqNull x = true ↔ x.get = none) ∧
    ueqNull x = !x.toBool := by
  refine ⟨?_, ?_, rfl⟩
  · simp [ueq]
  · cases h : x.ptr <;>
      simp [ueqNull, Unique_ptr.toBool, Unique_ptr.get, h]

/-- Claim C10: the composition `reset (release x)` restores `x` exactly — same
stored pointer, same deleter — and performs zero deleter invocations. -/
theorem reset_release_roundtrip {P D : Type} (x : Unique_ptr P D) :
    (let r := release x
     let s := reset r.2.1 r.1
     (s.1, r.2.2 ++ s.2)) = (x, []) :=
  rfl

/-- Non-null stored pointers of a configuration of live instances, one list
entry per instance that holds a non-null pointer. -/
def ptrs {P D : Type} (l : List (Unique_ptr P D)) : List P :=
  l.filterMap Unique_ptr.ptr

/-- Unique-ownership invariant of a configuration: no two live instances hold
the same non-null stored pointer. -/
def OwnInv {P D : Type} (l : List (Unique_ptr P D)) : Prop :=
  (ptrs l).Nodup

instance {P D : Type} [DecidableEq P] (l : List (Unique_ptr P D)) :
    Decidable (OwnInv l) :=
  inferInstanceAs (Decidable (ptrs l).Nodup)

theorem ptrs_append {P D : Type} (l₁ l₂ : List (Unique_ptr P D)) :
    ptrs (l₁ ++ l₂) = ptrs l₁ ++ ptrs l₂ :=
  List.filterMap_append l₁ l₂ Unique_ptr.ptr

theorem ptrs_cons {P D : Type} (x : Unique_ptr P D) (l : List (Unique_ptr P D)) :
    ptrs (x :: l) = x.ptr.toList ++ ptrs l := by
  cases h : x.ptr <;> simp [ptrs, List.filterMap_cons, h]

/-- Dropping a middle block of a duplicate-free concatenation. -/
theorem nodup_drop_block {α : Type} {A o B : List α} (h : (A ++ (o ++ B)).Nodup) :
    (A ++ B).Nodup :=
  List.Nodup.sublist
    ((List.Sublist.refl A).append (List.sublist_append_right o B)) h

/-- Inserting a fresh element into a duplicate-free concatenation. -/
theorem nodup_insert_block {α : Type} {A B : List α} {a : α}
    (h : (A ++ B).Nodup) (ha : a ∉ A) (hb : a ∉ B) : (A ++ a :: B).Nodup := by
  rw [List.nodup_middle]
  exact List.nodup_cons.mpr ⟨by simp [ha, hb], h⟩

/-- Rotating the outer blocks of a three-block concatenation is a
permutation. -/
theorem perm_rotate3 {α : Type} (o₁ M o₂ : List α) :
    (o₁ ++ (M ++ o₂)).Perm (o₂ ++ (M ++ o₁)) := by
  have h₁ : ((o₁ ++ M) ++ o₂).Perm (o₂ ++ (o₁ ++ M)) := List.perm_append_comm
  have h₂ : (o₂ ++ (o₁ ++ M)).Perm (o₂ ++ (M ++ o₁)) :=
    List.Perm.append_left o₂ List.perm_append_comm
  simpa [List.append_assoc] using h₁.trans h₂

/-- Swapping two blocks around a fixed middle is a permutation. -/
theorem perm_block_swap {α : Type} (A M B o₁ o₂ : List α) :
    (A ++ (o₁ ++ (M ++ (o₂ ++ B)))).Perm (A ++ (o₂ ++ (M ++ (o₁ ++ B)))) := by
  refine List.Perm.append_left A ?_
  have h := List.Perm.append_right B (perm_rotate3 o₁ M o₂)
  simpa [List.append_assoc] using h

/-- One public operation applied to a configuration of live instances, exactly
as the code performs it: release, reset with an arbitrary argument, null
assignment, move construction (the new instance joins the configuration),
converting move construction (at identical conversion), move assignment
between two distinct instances (in either relative position), self
move-assignment, member/free swap, and destruction (the instance leaves the
configuration). -/
inductive Step {P D : Type} :
    List (Unique_ptr P D) → List (Unique_ptr P D) → Prop where
  | releaseStep (pre post : List (Unique_ptr P D)) (x : Unique_ptr P D) :
      Step (pre ++ x :: post) (pre ++ (release x).2.1 :: post)
  | resetStep (pre post : List (Unique_ptr P D)) (x : Unique_ptr P D)
      (q : Option P) :
      Step (pre ++ x :: post) (pre ++ (reset x q).1 :: post)
  | nullAssignStep (pre post : List (Unique_ptr P D)) (x : Unique_ptr P D) :
      Step (pre ++ x :: post) (pre ++ (nullAssign x).1 :: post)
  | moveCtorStep (pre post : List (Unique_ptr P D)) (u : Unique_ptr P D) :
      Step (pre ++ u :: post)
        (pre ++ (moveConstruct u).1.2 :: post ++ [(moveConstruct u).1.1])
  | convMoveCtorStep (pre post : List (Unique_ptr P D)) (u : Unique_ptr P D) :
      Step (pre ++ u :: post)
        (pre ++ (convMoveConstruct id id u).1.2 :: post ++
          [(convMoveConstruct id id u).1.1])
  | moveAssignR (pre mid post : List (Unique_ptr P D)) (x u : Unique_ptr P D) :
      Step (pre ++ x :: mid ++ u :: post)
        (pre ++ (moveAssign x u).1.1 :: mid ++ (moveAssign x u).1.2 :: post)
  | moveAssignL (pre mid post : List (Unique_ptr P D)) (u x : Unique_ptr P D) :
      Step (pre ++ u :: mid ++ x :: post)
        (pre ++ (moveAssign x u).1.2 :: mid ++ (moveAssign x u).1.1 :: post)
  | selfAssignStep (pre post : List (Unique_ptr P D)) (x : Unique_ptr P D) :
      Step (pre ++ x :: post) (pre ++ (moveAssignSelf x).1 :: post)
  | swapStep (pre mid post : List (Unique_ptr P D)) (x y : Unique_ptr P D) :
      Step (pre ++ x :: mid ++ y :: post)
        (pre ++ (Unique_ptr.swap x y).1.1 :: mid ++
          (Unique_ptr.swap x y).1.2 :: post)
  | destroyStep (pre post : List (Unique_ptr P D)) (x : Unique_ptr P D) :
      Step (pre ++ x :: post) (pre ++ post)

/-- Same relation as `Step`, except that the argument handed to `reset` must
be null or not currently stored in any other live instance (the caller hands
over a pointer it exclusively owns). -/
inductive SafeStep {P D : Type} :
    List (Unique_ptr P D) → List (Unique_ptr P D) → Prop where
  | releaseStep (pre post : List (Unique_ptr P D)) (x : Unique_ptr P D) :
      SafeStep (pre ++ x :: post) (pre ++ (release x).2.1 :: post)
  | resetStep (pre post : List (Unique_ptr P D)) (x : Unique_ptr P D)
      (q : Option P) (hq : q = none ∨ ∀ y ∈ pre ++ post, y.ptr ≠ q) :
      SafeStep (pre ++ x :: post) (pre ++ (reset x q).1 :: post)
  | nullAssignStep (pre post : List (Unique_ptr P D)) (x : Unique_ptr P D) :
      SafeStep (pre ++ x :: post) (pre ++ (nullAssign x).1 :: post)
  | moveCtorStep (pre post : List (Unique_ptr P D)) (u : Unique_ptr P D) :
      SafeStep (pre ++ u :: post)
        (pre ++ (moveConstruct u).1.2 :: post ++ [(moveConstruct u).1.1])
  | convMoveCtorStep (pre post : List (Unique_ptr P D)) (u : Unique_ptr P D) :
      SafeStep (pre ++ u :: post)
        (pre ++ (convMoveConstruct id id u).1.2 :: post ++
          [(convMoveConstruct id id u).1.1])
  | moveAssignR (pre mid post : List (Unique_ptr P D)) (x u : Unique_ptr P D) :
      SafeStep (pre ++ x :: mid ++ u :: post)
        (pre ++ (moveAssign x u).1.1 :: mid ++ (moveAssign x u).1.2 :: post)
  | moveAssignL (pre mid post : List (Unique_ptr P D)) (u x : Unique_ptr P D) :
      SafeStep (pre ++ u :: mid ++ x :: post)
        (pre ++ (moveAssign x u).1.2 :: mid ++ (moveAssign x u).1.1 :: post)
  | selfAssignStep (pre post : List (Unique_ptr P D)) (x : Unique_ptr P D) :
      SafeStep (pre ++ x :: post) (pre ++ (moveAssignSelf x).1 :: post)
  | swapStep (pre mid post : List (Unique_ptr P D)) (x y : Unique_ptr P D) :
      SafeStep (pre ++ x :: mid ++ y :: post)
        (pre ++ (Unique_ptr.swap x y).1.1 :: mid ++
          (Unique_ptr.swap x y).1.2 :: post)
  | destroyStep (pre post : List (Unique_ptr P D)) (x : Unique_ptr P D) :
      SafeStep (pre ++ x :: post) (pre ++ post)

theorem ptrs_nil {P D : Type} : ptrs ([] : List (Unique_ptr P D)) = [] :=
  rfl

theorem release_eq {P D : Type} (x : Unique_ptr P D) :
    release x = (x.ptr, { x with ptr := none }, []) :=
  rfl

theorem moveConstruct_eq {P D : Type} (u : Unique_ptr P D) :
    moveConstruct u = ((⟨u.ptr, u.del⟩, { u with ptr := none }), []) :=
  rfl

theorem convMoveConstruct_eq {P D Q E : Type} (cp : Q → P) (cd : E → D)
    (u : Unique_ptr Q E) :
    convMoveConstruct cp cd u =
      ((⟨u.ptr.map cp, cd u.del⟩, { u with ptr := none }), []) :=
  rfl

theorem nullAssign_fst {P D : Type} (x : Unique_ptr P D) :
    (nullAssign x).1 = { x with ptr := none } :=
  reset_fst x none

/-- Claim C1 (amended): starting from a configuration of live instances whose
non-null stored pointers are pairwise distinct, every public operation — move
construction, converting move construction, move assignment (between distinct
instances or of an instance with itself), null assignment, release, swap,
destruction, and a reset whose argument is null or not currently stored in
any other live instance — preserves pairwise distinctness of the non-null
stored pointers. -/
theorem ownership_invariant_preserved {P D : Type}
    {l l' : List (Unique_ptr P D)} (h : SafeStep l l') (hinv : OwnInv l) :
    OwnInv l' := by
  cases h with
  | releaseStep pre post x =>
    simp only [OwnInv, ptrs_append, ptrs_cons, release_eq, Option.toList_none,
      List.nil_append, List.append_assoc] at hinv ⊢
    exact nodup_drop_block hinv
  | resetStep pre post x q hq =>
    simp only [OwnInv, ptrs_append, ptrs_cons, reset_fst, List.append_assoc]
      at hinv ⊢
    cases q with
    | none =>
      simp only [Option.toList_none, List.nil_append]
      exact nodup_drop_block hinv
    | some a =>
      have hfresh : ∀ y ∈ pre ++ post, y.ptr ≠ some a := by
        rcases hq with h | h
        · exact absurd h (by simp)
        · exact h
      have ha : a ∉ ptrs pre := by
        intro hmem
        rcases List.mem_filterMap.mp hmem with ⟨y, hy, hyp⟩
        exact hfresh y (List.mem_append.mpr (Or.inl hy)) hyp
      have hb : a ∉ ptrs post := by
        intro hmem
        rcases List.mem_filterMap.mp hmem with ⟨y, hy, hyp⟩
        exact hfresh y (List.mem_append.mpr (Or.inr hy)) hyp
      simp only [Option.toList_some, List.singleton_append]
      exact nodup_insert_block (nodup_drop_block hinv) ha hb
  | nullAssignStep pre post x =>
    simp only [OwnInv, ptrs_append, ptrs_cons, nullAssign_fst,
      Option.toList_none, List.nil_append, List.append_assoc] at hinv ⊢
    exact nodup_drop_block hinv
  | moveCtorStep pre post u =>
    simp only [OwnInv, ptrs_append, ptrs_cons, ptrs_nil, moveConstruct_eq,
      Option.toList_none, List.nil_append, List.append_nil,
      List.append_assoc] at hinv ⊢
    exact (List.Perm.append_left (ptrs pre) List.perm_append_comm).nodup hinv
  | convMoveCtorStep pre post u =>
    simp only [OwnInv, ptrs_append, ptrs_cons, ptrs_nil, convMoveConstruct_eq,
      Option.map_id, id_eq, Option.toList_none, List.nil_append,
      List.append_nil, List.append_assoc] at hinv ⊢
    exact (List.Perm.append_left (ptrs pre) List.perm_append_comm).nodup hinv
  | moveAssignR pre mid post x u =>
    simp only [OwnInv, ptrs_append, ptrs_cons, moveAssign_eq,
      Option.toList_none, List.nil_append, List.append_assoc] at hinv ⊢
    have h₂ :=
      (perm_block_swap (ptrs pre) (ptrs mid) (ptrs post) x.ptr.toList
        u.ptr.toList).nodup hinv
    exact List.Nodup.sublist
      ((List.Sublist.refl (ptrs pre)).append
        ((List.Sublist.refl u.ptr.toList).append
          ((List.Sublist.refl (ptrs mid)).append
            (List.sublist_append_right x.ptr.toList (ptrs post))))) h₂
  | moveAssignL pre mid post u x =>
    simp only [OwnInv, ptrs_append, ptrs_cons, moveAssign_eq,
      Option.toList_none, List.nil_append, List.append_assoc] at hinv ⊢
    have h₂ :=
      (perm_block_swap (ptrs pre) (ptrs mid) (ptrs post) u.ptr.toList
        x.ptr.toList).nodup hinv
    exact List.Nodup.sublist
      ((List.Sublist.refl (ptrs pre)).append
        (List.sublist_append_right x.ptr.toList
          (ptrs mid ++ (u.ptr.toList ++ ptrs post)))) h₂
  | selfAssignStep pre post x =>
    simpa only [OwnInv, ptrs_append, ptrs_cons, moveAssignSelf_eq,
      List.append_assoc] using hinv
  | swapStep pre mid post x y =>
    simp only [OwnInv, ptrs_append, ptrs_cons, Unique_ptr.swap,
      List.append_assoc] at hinv ⊢
    exact (perm_block_swap (ptrs pre) (ptrs mid) (ptrs post) x.ptr.toList
      y.ptr.toList).nodup hinv
  | destroyStep pre post x =>
    simp only [OwnInv, ptrs_append, ptrs_cons, List.append_assoc] at hinv ⊢
    exact nodup_drop_block hinv

/-- Witness for the amended C1 at a concrete release step. -/
theorem ownership_invariant_preserved_witness :
    OwnInv [(⟨none, ()⟩ : Unique_ptr Nat Unit), ⟨some 2, ()⟩] :=
  ownership_invariant_preserved
    (SafeStep.releaseStep [] [⟨some 2, ()⟩] ⟨some 1, ()⟩) (by decide)

/-- Counterexample to C1 as stated: from the configuration `[⟨1⟩, ⟨2⟩]`,
whose non-null stored pointers are pairwise distinct, the public operation
`reset` applied to the second instance with argument `1` — a pointer already
stored in the first instance — yields `[⟨1⟩, ⟨1⟩]`, where two live instances
hold the same non-null stored pointer. -/
theorem ownership_invariant_counterexample :
    OwnInv [(⟨some 1, ()⟩ : Unique_ptr Nat Unit), ⟨some 2, ()⟩] ∧
    Step [(⟨some 1, ()⟩ : Unique_ptr Nat Unit), ⟨some 2, ()⟩]
      [⟨some 1, ()⟩, ⟨some 1, ()⟩] ∧
    ¬ OwnInv [(⟨some 1, ()⟩ : Unique_ptr Nat Unit), ⟨some 1, ()⟩] :=
  ⟨by decide, Step.resetStep [⟨some 1, ()⟩] [] ⟨some 2, ()⟩ (some 1), by decide⟩
